import Mathlib

/-!
Verification development for the Py-TCG-Print repository.

We shallowly embed the layout engine, page compositor and batch scheduler
of `src/pytcgprint/core.py` (the canonical core/GUI-split implementation),
together with the CLI entry behaviour of `src/pytcgprint/cli.py`.

Modelling conventions:
  * Python `int` is `ℤ`; physical lengths (Python `float`) are `ℚ`
    (exact rational arithmetic; all concrete inputs we evaluate on are
    exactly representable binary floats, so the model agrees with Python).
  * Python `int(x)` truncates toward zero: `pyInt`.
  * Python `//` and `%` are floor division / floor remainder:
    `Int.fdiv` / `Int.fmod`.
  * The unbounded `while True` auto-row loop is embedded with explicit
    fuel; `none` means the fuel was exhausted, and divergence of the
    Python loop corresponds to returning `none` for every fuel.
  * Filesystem and image-decoding effects are parameters: a directory
    existence flag, a list of scan-validated files, and for each file an
    `Option Img` that is `none` when per-image processing inside
    `create_page` raises (the `except` branch).
-/

deriving instance DecidableEq for Except

set_option maxRecDepth 8000

namespace PyTCG

/-- `Settings` dataclass of `core.py` (lines 8-20). -/
structure Settings where
  input_dir : String
  output_file : String
  page_width : ℚ
  page_height : ℚ
  card_width : ℚ
  card_height : ℚ
  margin : ℚ
  scale : ℚ
  rows : ℤ
  cols : ℤ
  dpi : ℤ
deriving DecidableEq, Repr

/-- Python `int(q)`: truncation toward zero (for a rational given by
numerator and positive denominator, integer T-division). -/
def pyInt (q : ℚ) : ℤ := q.num.tdiv q.den

/-- `px(inches, dpi)` of `core.py` lines 22-24: `int(inches * dpi)`. -/
def px (inches : ℚ) (dpi : ℤ) : ℤ := pyInt (inches * dpi)

/-- `page_w` of `calculate_layout` (core.py line 56). -/
def pageW (s : Settings) : ℤ := px s.page_width s.dpi

/-- `page_h` of `calculate_layout` (core.py line 57). -/
def pageH (s : Settings) : ℤ := px s.page_height s.dpi

/-- `card_w` of `calculate_layout` (core.py line 60): scaled card width. -/
def cardW (s : Settings) : ℤ := px (s.card_width * s.scale) s.dpi

/-- `card_h` of `calculate_layout` (core.py line 61): scaled card height. -/
def cardH (s : Settings) : ℤ := px (s.card_height * s.scale) s.dpi

/-- `margin_x` of `calculate_layout` (core.py line 63). -/
def marginX (s : Settings) : ℤ := px s.margin s.dpi

/-- `avail_w` of `calculate_layout` (core.py line 70). -/
def availW (s : Settings) : ℤ := pageW s - 2 * marginX s

/-- The exceptions `calculate_layout` can raise: the two `ValueError`s of
core.py lines 76 and 121, and the `ZeroDivisionError` Python raises at
line 74 when the auto-column division `avail_w / card_w` has `card_w = 0`
(reachable because `px` truncates a positive physical width to 0). -/
inductive LayoutError
  | tooNarrow
  | tooTall
  | zeroDivision
deriving DecidableEq, Repr

/-- The dict returned by `calculate_layout` (core.py lines 126-135). -/
structure Layout where
  page_size : ℤ × ℤ
  card_size : ℤ × ℤ
  margin_x : ℤ
  margin_y : ℤ
  gap : ℤ
  cols : ℤ
  rows : ℤ
  cards_per_page : ℤ
deriving DecidableEq, Repr

/-- Column determination, core.py lines 72-76: explicit `cols ≥ 1` is used
as given; `cols ≤ 0` means auto: `floor(avail_w / card_w)`, raising
`ValueError` when the result is `< 1` (and `ZeroDivisionError` when
`card_w = 0`). -/
def colsStep (s : Settings) : Except LayoutError ℤ :=
  if s.cols ≤ 0 then
    if cardW s = 0 then .error .zeroDivision
    else
      let c := (availW s).fdiv (cardW s)
      if c < 1 then .error .tooNarrow else .ok c
  else .ok s.cols

/-- The horizontal gap computed from a fixed column count: core.py
lines 90-92 (inside the row loop, where it is loop-invariant) and
identically lines 109-114 (the final recomputation). -/
def gapOf (s : Settings) (cols : ℤ) : ℤ :=
  if 1 < cols then (pageW s - 2 * marginX s - cols * cardW s).fdiv (cols - 1)
  else 0

/-- `buffer_y` of core.py line 99: `px(0.25, dpi) * 2`. -/
def bufferY (s : Settings) : ℤ := px (1/4) s.dpi * 2

/-- The `while True` auto-row loop of core.py lines 83-104, with fuel.
`test_rows` starts at 1; each step computes the height needed by
`next_rows = test_rows + 1` rows and stops with `test_rows` once it
exceeds `page_h - buffer_y` (the `limit` argument). -/
def autoRowsAux (card_h gap limit : ℤ) : ℕ → ℤ → Option ℤ
  | 0, _ => none
  | fuel + 1, test_rows =>
    let next_rows := test_rows + 1
    let needed_h := next_rows * card_h + (next_rows - 1) * gap
    if needed_h > limit then some test_rows
    else autoRowsAux card_h gap limit fuel next_rows

/-- Row determination, core.py lines 78-104: explicit `rows ≥ 1` is used
as given and never enters the loop (so it is independent of the fuel and
of the buffer); `rows ≤ 0` runs the auto-row search. -/
def rowsStep (fuel : ℕ) (s : Settings) (cols : ℤ) : Option ℤ :=
  if s.rows ≤ 0 then autoRowsAux (cardH s) (gapOf s cols) (pageH s - bufferY s) fuel 1
  else some s.rows

/-- `total_grid_h` of core.py line 117: `rows*card_h + (rows-1)*gap`. -/
def totalGridH (s : Settings) (cols rows : ℤ) : ℤ :=
  rows * cardH s + (rows - 1) * gapOf s cols

/-- Final geometry, core.py lines 106-135: recompute the gap from the
final column count, check total grid height against the page height
(raising `ValueError` — no 0.25in buffer here), and center vertically. -/
def finalStep (s : Settings) (cols rows : ℤ) : Except LayoutError Layout :=
  if totalGridH s cols rows > pageH s then .error .tooTall
  else .ok {
    page_size := (pageW s, pageH s)
    card_size := (cardW s, cardH s)
    margin_x := marginX s
    margin_y := (pageH s - totalGridH s cols rows).fdiv 2
    gap := gapOf s cols
    cols := cols
    rows := rows
    cards_per_page := cols * rows }

/-- `calculate_layout` of core.py lines 52-135, assembled from the three
stages above. `none` models divergence of the auto-row loop (fuel ran
out). -/
def calculate_layout (fuel : ℕ) (s : Settings) : Option (Except LayoutError Layout) :=
  match colsStep s with
  | .error e => some (.error e)
  | .ok cols =>
    match rowsStep fuel s cols with
    | none => none
    | some rows => some (finalStep s cols rows)

/-- An abstract image: the compositor never inspects pixel content, only
places it, so an opaque identifier suffices. A batch entry is
`Option Img`: `none` models a file whose per-image processing inside
`create_page` raises (the `except` branch of core.py lines 165-166). -/
structure Img where
  id : ℕ
deriving DecidableEq, Repr

/-- `col = idx % cols` and the x position of core.py lines 158-161. -/
def cellX (layout : Layout) (idx : ℕ) : ℤ :=
  layout.margin_x + ((idx : ℤ).fmod layout.cols) * (layout.card_size.1 + layout.gap)

/-- `row = idx // cols` and the y position of core.py lines 159-162. -/
def cellY (layout : Layout) (idx : ℕ) : ℤ :=
  layout.margin_y + ((idx : ℤ).fdiv layout.cols) * (layout.card_size.2 + layout.gap)

/-- One successful paste of core.py line 164: which batch index landed at
which top-left pixel position, carrying the pasted image. -/
structure Placement where
  idx : ℕ
  x : ℤ
  y : ℤ
  img : Img
deriving DecidableEq, Repr

/-- `create_page` of core.py lines 137-168, abstracted to the list of
successful pastes on the initially white page: an entry that fails to
process contributes no paste (its cell stays white); when
`layout.cols = 0` the `idx % cols` of line 158 raises
`ZeroDivisionError`, which the per-image `except` of line 165 also
catches, so that entry likewise contributes nothing. -/
def create_page (image_paths : List (Option Img)) (layout : Layout) : List Placement :=
  image_paths.enum.filterMap fun pr =>
    pr.2.bind fun im =>
      if layout.cols = 0 then none
      else some ⟨pr.1, cellX layout pr.1, cellY layout pr.1, im⟩

/-- The page loop of `pytcgprint`, core.py lines 183-188: `total_pages =
ceil(total / cpp)` batches, batch `i` being the slice
`files[i*cpp : i*cpp + cpp]`. -/
def batches (files : List α) (cpp : ℕ) : List (List α) :=
  (List.range ((files.length + cpp - 1) / cpp)).map fun i =>
    (files.drop (i * cpp)).take cpp

/-- Observable console/filesystem events of a `pytcgprint` run, in
program order: the two error prints of `get_image_files` (core.py
lines 30 and 47), the caught-`ValueError` print of line 210, the save of
lines 196-204 and the no-pages print of line 206. -/
inductive Event
  | inputDirMissing
  | noValidImages
  | layoutFailed (e : LayoutError)
  | savedOutput
  | noPages
deriving DecidableEq, Repr

/-- What a completed (non-crashing) `pytcgprint` call yields: its ordered
observable events and the returned list of pages. -/
structure RunResult where
  events : List Event
  pages : List (List Placement)
deriving DecidableEq, Repr

/-- A `pytcgprint` call either crashes with an exception its
`except ValueError` does not catch, or returns a `RunResult`. -/
inductive PyOutcome
  | crash
  | result (r : RunResult)
deriving DecidableEq, Repr

/-- `get_image_files` of core.py lines 26-50, with the filesystem state
(directory existence, the scan-validated files in sorted order) passed as
parameters: returns the file list together with the error events it
printed. A missing directory and an empty scan both yield `[]`. -/
def get_image_files (dirExists : Bool) (validFiles : List (Option Img)) :
    List (Option Img) × List Event :=
  if dirExists = false then ([], [.inputDirMissing])
  else if validFiles = [] then ([], [.noValidImages])
  else (validFiles, [])

/-- `pytcgprint` of core.py lines 170-211. Note the source calls
`calculate_layout` unconditionally even when `get_image_files` returned
`[]`; only `ValueError` (tooNarrow/tooTall) is caught by line 209, a
`ZeroDivisionError` escapes as a crash. With zero files the page loop
runs zero times and the `else` of line 205 prints `No pages`. -/
def pytcgprint (fuel : ℕ) (dirExists : Bool) (validFiles : List (Option Img))
    (s : Settings) : Option PyOutcome :=
  let scan := get_image_files dirExists validFiles
  match calculate_layout fuel s with
  | none => none
  | some (.error .zeroDivision) => some .crash
  | some (.error e) => some (.result ⟨scan.2 ++ [.layoutFailed e], []⟩)
  | some (.ok layout) =>
    let pages := (batches scan.1 layout.cards_per_page.toNat).map fun b =>
      create_page b layout
    if pages = [] then some (.result ⟨scan.2 ++ [.noPages], []⟩)
    else some (.result ⟨scan.2 ++ [.savedOutput], pages⟩)

/-- `get_image_files` of cli.py lines 43-67: identical scan, but a
missing directory or an empty scan calls `sys.exit(1)` immediately. -/
def cli_get_image_files (dirExists : Bool) (validFiles : List (Option Img)) :
    Except ℕ (List (Option Img)) :=
  if dirExists = false then .error 1
  else if validFiles = [] then .error 1
  else .ok validFiles

/-- `main` of cli.py lines 189-229: files are fetched first (exiting 1
before any layout computation on input errors); cli.py's
`calculate_layout` (lines 69-154, logic identical to core.py's) exits 1
on layout errors (an uncaught `ZeroDivisionError` also ends the
interpreter with exit code 1); then the `cpp == 0` check of lines
198-200, the page loop, and the save. `.error c` is an exit with code
`c`, `.ok` carries the pages saved. -/
def cli_main (fuel : ℕ) (dirExists : Bool) (validFiles : List (Option Img))
    (s : Settings) : Option (Except ℕ (List (List Placement))) :=
  match cli_get_image_files dirExists validFiles with
  | .error c => some (.error c)
  | .ok files =>
    match calculate_layout fuel s with
    | none => none
    | some (.error _) => some (.error 1)
    | some (.ok layout) =>
      let cpp := layout.cards_per_page.toNat
      if cpp = 0 then some (.error 1)
      else some (.ok ((batches files cpp).map fun b => create_page b layout))

/-! ### Concrete inputs used by counterexamples and witnesses -/

/-- Scenario A of the spec: page 8.5×11in, card 2.5×3.5in, margin 0.5in,
scale 0.98, dpi 300, auto rows and columns (all defaults of cli.py). -/
def sA : Settings :=
  ⟨"cards", "output_deck.pdf", mkRat 17 2, 11, mkRat 5 2, mkRat 7 2,
   mkRat 1 2, mkRat 49 50, 0, 0, 300⟩

/-- The geometry `calculate_layout` computes for `sA`. -/
def layoutA : Layout :=
  ⟨(2550, 3300), (735, 1029), 150, 84, 22, 3, 3, 9⟩

/-- Scenario C of the spec: explicit `cols = 10` on the 8.5in default
page with unscaled 2.5in cards (rows pinned to 1 so only the gap is in
play). -/
def sC1 : Settings :=
  ⟨"cards", "output_deck.pdf", mkRat 17 2, 11, mkRat 5 2, mkRat 7 2,
   mkRat 1 2, 1, 1, 10, 300⟩

/-- A run (dpi 1 keeps numbers small) whose page height 301px and grid
height 100px differ by an odd number of pixels. -/
def sC2 : Settings := ⟨"cards", "output_deck.pdf", 100, 301, 50, 100, 0, 1, 1, 1, 1⟩

/-- Explicit `cols = 3` on a 10px-wide page with 5px-wide cards makes the
gap -3; the 0.1in card height converts to a single pixel. -/
def sC10 : Settings := ⟨"cards", "output_deck.pdf", 1, 1, mkRat 1 2, mkRat 1 10, 0, 1, 0, 3, 10⟩

/-- A page too narrow for one auto column (10px page, 100px card). -/
def sNarrow : Settings := ⟨"cards", "output_deck.pdf", 1, 1, 10, 10, mkRat 1 2, 1, 1, 0, 10⟩

/-! ### Structural lemmas about `calculate_layout` -/

/-- Destructuring of `calculate_layout`: a returned value comes either
from a column-stage error or from the final stage applied to the column
and row counts the first two stages produced. -/
theorem calculate_layout_eq (fuel : ℕ) (s : Settings) (res : Except LayoutError Layout) :
    calculate_layout fuel s = some res ↔
      (∃ e, colsStep s = .error e ∧ res = .error e) ∨
      (∃ cols rows, colsStep s = .ok cols ∧ rowsStep fuel s cols = some rows ∧
        res = finalStep s cols rows) := by
  rcases hcs : colsStep s with e | cols
  · simp only [calculate_layout, hcs, Option.some.injEq]
    constructor
    · intro h
      exact Or.inl ⟨e, rfl, h.symm⟩
    · rintro (⟨e2, he2, rfl⟩ | ⟨c, r, hcc, -, -⟩)
      · obtain rfl : e = e2 := by simpa using he2
        rfl
      · exact Except.noConfusion hcc
  · rcases hr : rowsStep fuel s cols with _ | rows
    · simp only [calculate_layout, hcs, hr]
      constructor
      · intro h
        exact Option.noConfusion h
      · rintro (⟨e, he, -⟩ | ⟨c, r, hcc, hrr, -⟩)
        · exact Except.noConfusion he
        · obtain rfl : cols = c := by simpa using hcc
          rw [hr] at hrr
          exact Option.noConfusion hrr
    · simp only [calculate_layout, hcs, hr, Option.some.injEq]
      constructor
      · intro h
        exact Or.inr ⟨cols, rows, rfl, hr, h.symm⟩
      · rintro (⟨e, he, -⟩ | ⟨c, r, hcc, hrr, hres⟩)
        · exact Except.noConfusion he
        · obtain rfl : cols = c := by simpa using hcc
          rw [hr] at hrr
          obtain rfl : rows = r := by simpa using hrr
          exact hres.symm

/-- Destructuring of `finalStep` in the success case. -/
theorem finalStep_ok (s : Settings) (cols rows : ℤ) (g : Layout) :
    finalStep s cols rows = .ok g ↔
      totalGridH s cols rows ≤ pageH s ∧
      g = ⟨(pageW s, pageH s), (cardW s, cardH s), marginX s,
           (pageH s - totalGridH s cols rows).fdiv 2,
           gapOf s cols, cols, rows, cols * rows⟩ := by
  unfold finalStep
  split
  · rename_i h
    constructor
    · intro hcontra
      exact Except.noConfusion hcontra
    · rintro ⟨hle, -⟩
      omega
  · rename_i h
    push_neg at h
    constructor
    · intro hg
      injection hg with hg
      exact ⟨h, hg.symm⟩
    · rintro ⟨-, rfl⟩
      rfl

/-! ### C1 -/

/-- The layout `calculate_layout` returns on `sC1`: explicit `cols = 10`
leaves `2550 - 300 - 7500 = -5250` px of "gap space", and
`(-5250) // 9 = -584` is returned unclamped. -/
def layoutC1 : Layout :=
  ⟨(2550, 3300), (750, 1050), 150, 1125, -584, 10, 1, 10⟩

/-- C1: the spec requires the horizontal gap never to be negative
(a negative remainder must be floored to 0), and `main.py` indeed clamps
with `max(0, gap_x)` (line 57), but `calculate_layout` in
`core.py` (lines 112-114) has no clamp: on `sC1` (explicit
`cols = 10` on the default page) it succeeds and returns `gap = -584`.
This theorem evaluates the code at that failing input. -/
theorem c1_negative_gap_returned :
    calculate_layout 0 sC1 = some (.ok layoutC1) ∧ layoutC1.gap = -584 ∧
      layoutC1.gap < 0 := by
  refine ⟨?_, rfl, by decide⟩
  with_unfolding_all rfl

/-! ### C2 -/

/-- C2 counterexample: on `sC2` the returned geometry has
`margin_y = (301 - 100) // 2 = 100`, so
`2*margin_y + total_grid_h = 300 ≠ 301 = pageH (proved equal to `pageH sC2` here): the exact identity
claimed fails whenever `pageH - total_grid_h` is odd (floor division
drops one pixel). -/
theorem c2_counterexample :
    calculate_layout 0 sC2 =
      some (.ok ⟨(100, 301), (50, 100), 0, 100, 0, 1, 1, 1⟩) ∧
    pageH sC2 = 301 ∧ ¬(2 * (100 : ℤ) + (1 * 100 + (1 - 1) * 0) = 301) := by
  refine ⟨?_, ?_, by decide⟩
  · with_unfolding_all rfl
  · with_unfolding_all rfl

/-- C2 (amended): for every input on which `calculate_layout` succeeds,
`2*margin_y + total_grid_h` equals `pageH` up to the one-pixel loss of
the floor division: `2*margin_y + gridH ≤ pageH ≤ 2*margin_y + gridH + 1`
(the exact identity holds exactly when `pageH - gridH` is even). -/
theorem c2_vertical_centering (fuel : ℕ) (s : Settings) (g : Layout)
    (h : calculate_layout fuel s = some (.ok g)) :
    2 * g.margin_y + (g.rows * g.card_size.2 + (g.rows - 1) * g.gap) ≤ pageH s ∧
    pageH s ≤ 2 * g.margin_y + (g.rows * g.card_size.2 + (g.rows - 1) * g.gap) + 1 := by
  rcases (calculate_layout_eq fuel s _).mp h with ⟨e, -, he⟩ | ⟨cols, rows, -, -, hres⟩
  · exact Except.noConfusion he
  · rcases (finalStep_ok s cols rows g).mp hres.symm with ⟨hle, rfl⟩
    dsimp only
    rw [Int.fdiv_eq_ediv _ (by omega : (0:ℤ) ≤ 2)]
    unfold totalGridH at hle ⊢
    generalize rows * cardH s + (rows - 1) * gapOf s cols = T at *
    omega

/-- C2 witness: the amended bound, instantiated on scenario A
(`margin_y = 84`, grid height `3*1029 + 2*22 = 3131`, page 3300). -/
theorem c2_vertical_centering_witness :
    calculate_layout 10 sA = some (.ok layoutA) ∧
    (2 * layoutA.margin_y +
        (layoutA.rows * layoutA.card_size.2 + (layoutA.rows - 1) * layoutA.gap) ≤ pageH sA ∧
      pageH sA ≤ 2 * layoutA.margin_y +
        (layoutA.rows * layoutA.card_size.2 + (layoutA.rows - 1) * layoutA.gap) + 1) :=
  ⟨by with_unfolding_all rfl,
   c2_vertical_centering 10 sA layoutA (by with_unfolding_all rfl)⟩

/-! ### C3 -/

/-- Zero files give zero pages: `total_pages = ceil(0 / cpp) = 0` and the
page loop body never runs. -/
theorem batches_nil {α : Type} (cpp : ℕ) : batches ([] : List α) cpp = [] := by
  unfold batches
  have h : ((List.length ([] : List α)) + cpp - 1) / cpp = 0 := by
    rcases Nat.eq_zero_or_pos cpp with rfl | hpos
    · simp
    · simp only [List.length_nil]
      exact Nat.div_eq_of_lt (by omega)
  rw [h]
  rfl

/-- C3 counterexample: the directory exists but holds zero valid images,
and the page is too narrow for one auto column. `pytcgprint` of core.py
prints the input error but then still calls `calculate_layout`
(line 175 runs unconditionally), whose failure is also reported — so the
run did NOT abort before layout computation — and the function returns
normally (an empty list) instead of exiting non-zero. Only cli.py's
entry point exits before layout. -/
theorem c3_counterexample :
    pytcgprint 1 true [] sNarrow =
      some (.result ⟨[.noValidImages, .layoutFailed .tooNarrow], []⟩) := by
  with_unfolding_all rfl

/-- C3 (amended): with a missing input directory or zero valid images,
the run reports the input error and writes no output (core.py:
`pytcgprint` returns pages `[]` and never reaches the save, its event
trace starts with the input error; cli.py: `main` exits with code 1
before any layout work). But core.py's `pytcgprint` does not abort
before layout computation — it still evaluates `calculate_layout`
(witnessed here by its divergence propagating) — and it returns an empty
list rather than exiting non-zero. -/
theorem c3_input_error_behaviour (fuel : ℕ) (d : Bool) (v : List (Option Img))
    (s : Settings) (h : d = false ∨ v = []) :
    (∀ r, pytcgprint fuel d v s = some (.result r) →
        r.pages = [] ∧ Event.savedOutput ∉ r.events ∧
        (Event.inputDirMissing ∈ r.events ∨ Event.noValidImages ∈ r.events)) ∧
    (calculate_layout fuel s = none → pytcgprint fuel d v s = none) ∧
    cli_main fuel d v s = some (.error 1) := by
  obtain ⟨ev, hev, hscan⟩ :
      ∃ ev, (ev = Event.inputDirMissing ∨ ev = Event.noValidImages) ∧
        get_image_files d v = ([], [ev]) := by
    rcases h with rfl | rfl
    · exact ⟨_, Or.inl rfl, rfl⟩
    · cases d
      · exact ⟨_, Or.inl rfl, rfl⟩
      · exact ⟨_, Or.inr rfl, rfl⟩
  have hcli : cli_get_image_files d v = .error 1 := by
    rcases h with rfl | rfl
    · rfl
    · cases d <;> rfl
  have hclimain : cli_main fuel d v s = some (.error 1) := by
    unfold cli_main
    rw [hcli]
  refine ⟨?_, ?_, hclimain⟩
  · intro r hr
    rcases hcal : calculate_layout fuel s with _ | exc
    · rw [pytcgprint, hcal] at hr
      exact Option.noConfusion hr
    · rcases exc with e | layout
      · rcases e with _ | _ | _
        · rw [pytcgprint, hscan, hcal] at hr
          injection hr with hr
          injection hr with hr
          subst hr
          refine ⟨rfl, ?_, ?_⟩
          · rcases hev with rfl | rfl <;> simp
          · rcases hev with rfl | rfl
            · exact Or.inl (by simp)
            · exact Or.inr (by simp)
        · rw [pytcgprint, hscan, hcal] at hr
          injection hr with hr
          injection hr with hr
          subst hr
          refine ⟨rfl, ?_, ?_⟩
          · rcases hev with rfl | rfl <;> simp
          · rcases hev with rfl | rfl
            · exact Or.inl (by simp)
            · exact Or.inr (by simp)
        · rw [pytcgprint, hscan, hcal] at hr
          injection hr with hr
          exact PyOutcome.noConfusion hr
      · rw [pytcgprint, hscan, hcal] at hr
        dsimp only at hr
        rw [batches_nil] at hr
        simp only [List.map_nil, if_true] at hr
        injection hr with hr
        injection hr with hr
        subst hr
        refine ⟨rfl, ?_, ?_⟩
        · rcases hev with rfl | rfl <;> simp
        · rcases hev with rfl | rfl
          · exact Or.inl (by simp)
          · exact Or.inr (by simp)
  · intro hnone
    rw [pytcgprint, hnone]

/-- C3 witness: the amended behaviour instantiated at a concrete empty
scan (the cli exit part, whose hypothesis `v = []` is discharged). -/
theorem c3_input_error_behaviour_witness :
    (true = false ∨ ([] : List (Option Img)) = []) ∧
    cli_main 1 true [] sA = some (.error 1) :=
  ⟨Or.inr rfl, (c3_input_error_behaviour 1 true [] sA (Or.inr rfl)).2.2⟩

/-! ### C4 -/

/-- Characterization of the auto-row loop: if it stops with `r`, then `r`
is at least the starting trial count, the height needed by `r + 1` rows
exceeds the limit, and for no earlier trial count did the needed height
of its successor exceed the limit. -/
theorem autoRowsAux_some (ch gp lim : ℤ) :
    ∀ (fuel : ℕ) (t r : ℤ), autoRowsAux ch gp lim fuel t = some r →
      t ≤ r ∧ (r + 1) * ch + r * gp > lim ∧
      ∀ u, t ≤ u → u < r → (u + 1) * ch + u * gp ≤ lim := by
  intro fuel
  induction fuel with
  | zero =>
    intro t r h
    exact Option.noConfusion h
  | succ n ih =>
    intro t r h
    simp only [autoRowsAux] at h
    have hsub : t + 1 - 1 = t := by ring
    split at h
    · rename_i hgt
      rw [hsub] at hgt
      obtain rfl : t = r := by simpa using h
      exact ⟨le_refl _, hgt, fun u h1 h2 => absurd h2 (by omega)⟩
    · rename_i hngt
      rw [hsub] at hngt
      push_neg at hngt
      obtain ⟨h1, h2, h3⟩ := ih (t + 1) r h
      refine ⟨by omega, h2, ?_⟩
      intro u hu1 hu2
      rcases eq_or_lt_of_le hu1 with rfl | hu
      · exact hngt
      · exact h3 u (by omega) hu2

/-- C4: the row count in the geometry is exactly what `rowsStep`
produced; in auto mode (`requestedRows ≤ 0`) the search result `r` is
the last trial count that fit — the height needed by `r+1` rows,
`(r+1)*cardH + r*gap`, exceeds `pageH - 2*px(0.25, dpi)` while the
needed height of every smaller trial count's successor did not; an
explicit `requestedRows ≥ 1` is used unchanged (for every fuel, so the
buffered search is bypassed entirely). -/
theorem c4_row_search (s : Settings) (fuel : ℕ) :
    (∀ cols g, colsStep s = .ok cols → calculate_layout fuel s = some (.ok g) →
        rowsStep fuel s cols = some g.rows) ∧
    (∀ cols r, s.rows ≤ 0 → rowsStep fuel s cols = some r →
        (r + 1) * cardH s + r * gapOf s cols > pageH s - 2 * px (1/4) s.dpi ∧
        ∀ t, 1 ≤ t → t < r →
          (t + 1) * cardH s + t * gapOf s cols ≤ pageH s - 2 * px (1/4) s.dpi) ∧
    (∀ cols, 1 ≤ s.rows → rowsStep fuel s cols = some s.rows) := by
  refine ⟨?_, ?_, ?_⟩
  · intro cols g hc hcal
    rcases (calculate_layout_eq fuel s _).mp hcal with ⟨e, -, he⟩ | ⟨c, r, hcc, hrr, hres⟩
    · exact Except.noConfusion he
    · rw [hc] at hcc
      injection hcc with hcc
      subst hcc
      rcases (finalStep_ok s cols r g).mp hres.symm with ⟨-, rfl⟩
      exact hrr
  · intro cols r hauto hstep
    rw [rowsStep, if_pos hauto] at hstep
    obtain ⟨-, h2, h3⟩ := autoRowsAux_some _ _ _ fuel 1 r hstep
    have hbuf : pageH s - bufferY s = pageH s - 2 * px (1/4) s.dpi := by
      unfold bufferY
      ring
    rw [hbuf] at h2 h3
    exact ⟨h2, fun t ht1 ht2 => h3 t ht1 ht2⟩
  · intro cols hexp
    rw [rowsStep, if_neg (by omega)]

/-- C4 witness: scenario A — the geometry's row count 3 comes from
`rowsStep`, and the auto-search threshold holds there:
`4*1029 + 3*22 = 4182 > 3150 = 3300 - 2*75`. -/
theorem c4_row_search_witness :
    colsStep sA = .ok 3 ∧ calculate_layout 10 sA = some (.ok layoutA) ∧
    sA.rows ≤ 0 ∧ rowsStep 10 sA 3 = some 3 ∧
    ((3 : ℤ) + 1) * cardH sA + 3 * gapOf sA 3 > pageH sA - 2 * px (1/4) sA.dpi := by
  have hc : colsStep sA = .ok 3 := by with_unfolding_all rfl
  have hcal : calculate_layout 10 sA = some (.ok layoutA) := by with_unfolding_all rfl
  have hrows : rowsStep 10 sA 3 = some 3 := by with_unfolding_all rfl
  have hauto : sA.rows ≤ 0 := by decide
  exact ⟨hc, hcal, hauto, hrows,
    ((c4_row_search sA 10).2.1 3 3 hauto hrows).1⟩

/-! ### C5 -/

/-- `finalStep` can only fail with `tooTall`. -/
theorem finalStep_ne_tooNarrow (s : Settings) (cols rows : ℤ) :
    finalStep s cols rows ≠ .error .tooNarrow := by
  unfold finalStep
  split
  · intro h
    injection h with h
    exact LayoutError.noConfusion h
  · intro h
    exact Except.noConfusion h

/-- C5: with a nonzero pixel card width, in auto mode
(`requestedCols ≤ 0`) the run fails with the too-narrow error exactly
when `floor((pageW - 2*marginX) / cardW) < 1`; an explicit
`requestedCols ≥ 1` never produces that error; and a returned geometry
carries exactly the auto-computed quotient (auto mode) or the requested
value (explicit mode, regardless of fit). -/
theorem c5_column_determination (s : Settings) (fuel : ℕ) (hcw : 1 ≤ cardW s) :
    (s.cols ≤ 0 →
      ((calculate_layout fuel s = some (.error .tooNarrow)) ↔
        (availW s).fdiv (cardW s) < 1)) ∧
    (1 ≤ s.cols → ¬(calculate_layout fuel s = some (.error .tooNarrow))) ∧
    (∀ g, calculate_layout fuel s = some (.ok g) →
      g.cols = if s.cols ≤ 0 then (availW s).fdiv (cardW s) else s.cols) := by
  have hcw0 : ¬(cardW s = 0) := by omega
  have hnotNarrow : ∀ c, colsStep s = .ok c →
      ¬(calculate_layout fuel s = some (.error .tooNarrow)) := by
    intro c hcs hcon
    rcases (calculate_layout_eq fuel s _).mp hcon with ⟨e, hce, he⟩ | ⟨c2, r, -, -, hres⟩
    · rw [hcs] at hce
      exact Except.noConfusion hce
    · exact finalStep_ne_tooNarrow s c2 r hres.symm
  refine ⟨?_, ?_, ?_⟩
  · intro hauto
    by_cases hlt : (availW s).fdiv (cardW s) < 1
    · have hcs : colsStep s = .error .tooNarrow := by
        rw [colsStep, if_pos hauto, if_neg hcw0]
        exact if_pos hlt
      constructor
      · intro _
        exact hlt
      · intro _
        rw [calculate_layout, hcs]
    · have hcs : colsStep s = .ok ((availW s).fdiv (cardW s)) := by
        rw [colsStep, if_pos hauto, if_neg hcw0]
        exact if_neg hlt
      exact ⟨fun hcon => absurd hcon (hnotNarrow _ hcs), fun hcon => absurd hcon hlt⟩
  · intro hexp
    have hcs : colsStep s = .ok s.cols := by
      rw [colsStep, if_neg (by omega)]
    exact hnotNarrow _ hcs
  · intro g hcal
    rcases (calculate_layout_eq fuel s _).mp hcal with ⟨e, -, he⟩ | ⟨c, r, hcc, -, hres⟩
    · exact Except.noConfusion he
    · rcases (finalStep_ok s c r g).mp hres.symm with ⟨-, rfl⟩
      by_cases hauto : s.cols ≤ 0
      · rw [if_pos hauto]
        by_cases hlt : (availW s).fdiv (cardW s) < 1
        · rw [colsStep, if_pos hauto, if_neg hcw0, if_pos hlt] at hcc
          exact Except.noConfusion hcc
        · rw [colsStep, if_pos hauto, if_neg hcw0, if_neg hlt] at hcc
          injection hcc with hcc
          exact hcc.symm
      · rw [if_neg hauto]
        rw [colsStep, if_neg hauto] at hcc
        injection hcc with hcc
        exact hcc.symm

/-- C5 witness: scenario A (auto columns, `cardW = 735` so the
hypothesis holds) — the geometry's column count is the auto quotient
`floor(2250 / 735) = 3`. -/
theorem c5_column_determination_witness :
    (1 : ℤ) ≤ cardW sA ∧
    layoutA.cols = if sA.cols ≤ 0 then (availW sA).fdiv (cardW sA) else sA.cols := by
  have hcw : (1 : ℤ) ≤ cardW sA := by
    rw [show cardW sA = 735 from by with_unfolding_all rfl]
    decide
  exact ⟨hcw, (c5_column_determination sA 10 hcw).2.2 layoutA
    (by with_unfolding_all rfl)⟩

/-! ### C6 -/

/-- C6: once the column count, row count and gap are fixed, the run
fails with the too-tall error exactly when
`rows*cardH + (rows-1)*gap > pageH`, and otherwise returns a geometry.
The final check compares against the full `pageH` — the 0.25in buffer
appears nowhere in `finalStep`. -/
theorem c6_final_height_check (s : Settings) (fuel : ℕ) (cols rows : ℤ)
    (res : Except LayoutError Layout)
    (hc : colsStep s = .ok cols) (hr : rowsStep fuel s cols = some rows)
    (hres : calculate_layout fuel s = some res) :
    ((res = .error .tooTall) ↔
      pageH s < rows * cardH s + (rows - 1) * gapOf s cols) ∧
    (rows * cardH s + (rows - 1) * gapOf s cols ≤ pageH s → ∃ g, res = .ok g) := by
  have hfin : res = finalStep s cols rows := by
    rcases (calculate_layout_eq fuel s _).mp hres with ⟨e, hce, -⟩ | ⟨c, r, hcc, hrr, h2⟩
    · rw [hc] at hce
      exact Except.noConfusion hce
    · rw [hc] at hcc
      injection hcc with hcc
      subst hcc
      rw [hr] at hrr
      injection hrr with hrr
      subst hrr
      exact h2
  subst hfin
  rw [show rows * cardH s + (rows - 1) * gapOf s cols = totalGridH s cols rows from rfl]
  unfold finalStep
  split
  · rename_i hgt
    refine ⟨⟨fun _ => by omega, fun _ => rfl⟩, fun hle => absurd hle (by omega)⟩
  · rename_i hngt
    push_neg at hngt
    refine ⟨⟨fun hcon => Except.noConfusion hcon, fun hlt => absurd hlt (by omega)⟩,
      fun _ => ⟨_, rfl⟩⟩

/-- C6 witness: scenario A — grid height `3*1029 + 2*22 = 3131 ≤ 3300`,
so the result is a geometry and the too-tall error is not raised. -/
theorem c6_final_height_check_witness :
    colsStep sA = .ok 3 ∧ rowsStep 10 sA 3 = some 3 ∧
    calculate_layout 10 sA = some (.ok layoutA) ∧
    ((Except.ok layoutA : Except LayoutError Layout) = .error .tooTall ↔
      pageH sA < 3 * cardH sA + ((3 : ℤ) - 1) * gapOf sA 3) := by
  have hc : colsStep sA = .ok 3 := by with_unfolding_all rfl
  have hr : rowsStep 10 sA 3 = some 3 := by with_unfolding_all rfl
  have hcal : calculate_layout 10 sA = some (.ok layoutA) := by with_unfolding_all rfl
  exact ⟨hc, hr, hcal, (c6_final_height_check sA 10 3 3 _ hc hr hcal).1⟩

/-! ### C7 -/

/-- Membership characterization of `create_page`: a paste is on the page
exactly when the batch holds a successfully processed image at that
index, the column count is nonzero, and the position is the grid cell
position of the index. -/
theorem mem_create_page (imgs : List (Option Img)) (layout : Layout) (p : Placement) :
    p ∈ create_page imgs layout ↔
      imgs[p.idx]? = some (some p.img) ∧ ¬(layout.cols = 0) ∧
      p.x = cellX layout p.idx ∧ p.y = cellY layout p.idx := by
  unfold create_page
  rw [List.mem_filterMap]
  constructor
  · rintro ⟨⟨i, oim⟩, hmem, hf⟩
    rcases oim with _ | im
    · exact Option.noConfusion hf
    · simp only [Option.bind_some] at hf
      split at hf
      · exact Option.noConfusion hf
      · rename_i hc0
        injection hf with hf
        subst hf
        exact ⟨List.mk_mem_enum_iff_getElem?.mp hmem, hc0, rfl, rfl⟩
  · rintro ⟨hget, hc0, hx, hy⟩
    rcases p with ⟨i, x, y, im⟩
    simp only at hget hx hy
    subst hx
    subst hy
    refine ⟨(i, some im), List.mk_mem_enum_iff_getElem?.mpr hget, ?_⟩
    dsimp only [Option.bind]
    rw [if_neg hc0]

/-- C7: the image at 0-based batch index `i` is pasted at grid cell
`(i mod cols, i div cols)`, i.e. at top-left pixel position
`x = marginX + (i mod cols)*(cardW + gap)`,
`y = marginY + (i div cols)*(cardH + gap)` (Python `%` and `//` are
`Int.fmod` and `Int.fdiv`). -/
theorem c7_placement (layout : Layout) (imgs : List (Option Img)) (i : ℕ) (im : Img)
    (hcols : 1 ≤ layout.cols) (h : imgs[i]? = some (some im)) :
    (⟨i, layout.margin_x + ((i : ℤ).fmod layout.cols) * (layout.card_size.1 + layout.gap),
        layout.margin_y + ((i : ℤ).fdiv layout.cols) * (layout.card_size.2 + layout.gap),
        im⟩ : Placement) ∈ create_page imgs layout := by
  rw [mem_create_page]
  exact ⟨h, by omega, rfl, rfl⟩

/-- C7 witness: a two-image batch on the scenario-A geometry — the image
at index 1 lands at cell `(1, 0)`, pixel position
`(150 + 1*(735+22), 84 + 0) = (907, 84)`. -/
theorem c7_placement_witness :
    (1 : ℤ) ≤ layoutA.cols ∧
    ([some ⟨5⟩, some ⟨7⟩] : List (Option Img))[1]? = some (some ⟨7⟩) ∧
    (⟨1, layoutA.margin_x + ((1 : ℤ).fmod layoutA.cols) * (layoutA.card_size.1 + layoutA.gap),
        layoutA.margin_y + ((1 : ℤ).fdiv layoutA.cols) * (layoutA.card_size.2 + layoutA.gap),
        ⟨7⟩⟩ : Placement) ∈ create_page [some ⟨5⟩, some ⟨7⟩] layoutA :=
  ⟨by decide, by decide,
   c7_placement layoutA [some ⟨5⟩, some ⟨7⟩] 1 ⟨7⟩ (by decide) (by decide)⟩

/-! ### C8 -/

/-- C8: a malformed image at batch index `k` does not disturb the rest
of the page: every paste at an index `j ≠ k` is present exactly as it
would be had image `k` processed successfully, and no paste lands at
index `k` (its cell stays white, as the page canvas is white). -/
theorem c8_malformed_isolated (layout : Layout) (imgs : List (Option Img)) (k : ℕ)
    (im : Img) (j : ℕ) (x y : ℤ) (im2 : Img) :
    (j ≠ k →
      ((⟨j, x, y, im2⟩ : Placement) ∈ create_page (imgs.set k none) layout ↔
       (⟨j, x, y, im2⟩ : Placement) ∈ create_page (imgs.set k (some im)) layout)) ∧
    ((⟨k, x, y, im2⟩ : Placement) ∉ create_page (imgs.set k none) layout) := by
  constructor
  · intro hjk
    rw [mem_create_page, mem_create_page]
    simp only
    rw [List.getElem?_set_ne (fun h => hjk h.symm),
      List.getElem?_set_ne (fun h => hjk h.symm)]
  · rw [mem_create_page]
    rintro ⟨hget, -, -, -⟩
    simp only at hget
    rcases Nat.lt_or_ge k imgs.length with hk | hk
    · rw [List.getElem?_set_self (by simpa using hk)] at hget
      injection hget with hget
      exact Option.noConfusion hget
    · rw [List.getElem?_eq_none (by simpa using hk)] at hget
      exact Option.noConfusion hget

/-- C8 witness: in the batch `[some 5, none, some 9]` (index 1
malformed), index 2's paste is unaffected and index 1 has no paste. -/
theorem c8_malformed_isolated_witness :
    ((2 : ℕ) ≠ 1) ∧
    (((⟨2, cellX layoutA 2, cellY layoutA 2, ⟨9⟩⟩ : Placement) ∈
        create_page (([some ⟨5⟩, some ⟨4⟩, some ⟨9⟩] : List (Option Img)).set 1 none) layoutA ↔
      (⟨2, cellX layoutA 2, cellY layoutA 2, ⟨9⟩⟩ : Placement) ∈
        create_page (([some ⟨5⟩, some ⟨4⟩, some ⟨9⟩] : List (Option Img)).set 1 (some ⟨4⟩)) layoutA)) ∧
    ((⟨1, cellX layoutA 1, cellY layoutA 1, ⟨4⟩⟩ : Placement) ∉
      create_page (([some ⟨5⟩, some ⟨4⟩, some ⟨9⟩] : List (Option Img)).set 1 none) layoutA) :=
  ⟨by decide,
   (c8_malformed_isolated layoutA [some ⟨5⟩, some ⟨4⟩, some ⟨9⟩] 1 ⟨4⟩ 2
      (cellX layoutA 2) (cellY layoutA 2) ⟨9⟩).1 (by decide),
   (c8_malformed_isolated layoutA [some ⟨5⟩, some ⟨4⟩, some ⟨9⟩] 1 ⟨4⟩ 1
      (cellX layoutA 1) (cellY layoutA 1) ⟨4⟩).2⟩

/-! ### C9 -/

/-- The concatenation of the first `k` batch slices is the first
`k * cpp` elements of the list. -/
theorem flatten_batches_prefix {α : Type} (l : List α) (cpp : ℕ) :
    ∀ k, ((List.range k).map fun i => (l.drop (i * cpp)).take cpp).flatten =
      l.take (k * cpp) := by
  intro k
  induction k with
  | zero => simp
  | succ n ih =>
    rw [List.range_succ, List.map_append, List.flatten_append, ih]
    simp only [List.map_cons, List.map_nil, List.flatten_cons, List.flatten_nil,
      List.append_nil]
    rw [← List.take_add]
    congr 1
    ring

/-- With `cpp ≥ 1`, the page count `(len + cpp - 1) / cpp` is large
enough (`len ≤ tp * cpp`) and tight (`tp * cpp ≤ len + cpp - 1`). -/
theorem batches_count_bounds (len cpp : ℕ) (h : 1 ≤ cpp) :
    len ≤ ((len + cpp - 1) / cpp) * cpp ∧
      ((len + cpp - 1) / cpp) * cpp ≤ len + cpp - 1 := by
  have hpos : 0 < cpp := h
  have h1 : ((len + cpp - 1) / cpp) * cpp ≤ len + cpp - 1 :=
    (Nat.le_div_iff_mul_le hpos).mp le_rfl
  have h2 : len + cpp - 1 < ((len + cpp - 1) / cpp + 1) * cpp :=
    (Nat.div_lt_iff_lt_mul hpos).mp (Nat.lt_succ_self _)
  have h3 : ((len + cpp - 1) / cpp + 1) * cpp = ((len + cpp - 1) / cpp) * cpp + cpp := by
    ring
  rw [h3] at h2
  set M := ((len + cpp - 1) / cpp) * cpp
  omega

/-- C9: with capacity ≥ 1 the scheduler produces
`ceil(total / capacity) = (total + capacity - 1) / capacity` contiguous
batches whose concatenation is the input list; every batch before the
last has length exactly `capacity`, and the last batch (when the list is
nonempty) has length `total mod capacity`, or `capacity` when `capacity`
divides `total`. -/
theorem c9_batching {α : Type} (l : List α) (cpp : ℕ) (h : 1 ≤ cpp) :
    (batches l cpp).length = (l.length + cpp - 1) / cpp ∧
    (batches l cpp).flatten = l ∧
    (∀ b ∈ (batches l cpp).dropLast, b.length = cpp) ∧
    (∀ b, (batches l cpp).getLast? = some b →
      b.length = if l.length % cpp = 0 then cpp else l.length % cpp) := by
  obtain ⟨hbig, htight⟩ := batches_count_bounds l.length cpp h
  refine ⟨by simp [batches], ?_, ?_, ?_⟩
  · rw [batches, flatten_batches_prefix]
    exact List.take_of_length_le hbig
  · intro b hb
    rcases htp : (l.length + cpp - 1) / cpp with _ | m
    · rw [batches, htp] at hb
      simp at hb
    · rw [batches, htp, List.range_succ, List.map_append] at hb
      simp only [List.map_cons, List.map_nil] at hb
      rw [List.dropLast_concat] at hb
      rw [List.mem_map] at hb
      obtain ⟨i, hi, rfl⟩ := hb
      rw [List.mem_range] at hi
      rw [List.length_take, List.length_drop]
      have hmul : (i + 1) * cpp ≤ m * cpp := Nat.mul_le_mul_right cpp hi
      have hmle : m * cpp + cpp ≤ l.length + cpp - 1 := by
        rw [htp] at htight
        calc m * cpp + cpp = (m + 1) * cpp := by ring
          _ ≤ l.length + cpp - 1 := htight
      have hiexp : (i + 1) * cpp = i * cpp + cpp := by ring
      refine min_eq_left ?_
      set A := i * cpp
      set B := m * cpp
      set X := (i + 1) * cpp
      omega
  · intro b hb
    rcases htp : (l.length + cpp - 1) / cpp with _ | m
    · rw [batches, htp] at hb
      simp at hb
    · rw [batches, htp, List.range_succ, List.map_append] at hb
      simp only [List.map_cons, List.map_nil] at hb
      rw [List.getLast?_concat] at hb
      injection hb with hb
      subst hb
      rw [htp] at hbig htight
      have hsucc : (m + 1) * cpp = m * cpp + cpp := by ring
      rw [hsucc] at hbig htight
      have hlen1 : m * cpp < l.length := by
        set B := m * cpp
        omega
      have hR : l.length - m * cpp ≤ cpp := by
        set B := m * cpp
        omega
      have hmod : l.length % cpp = (l.length - m * cpp) % cpp := by
        have hsplit : l.length = (l.length - m * cpp) + m * cpp := by
          set B := m * cpp
          omega
        nth_rewrite 1 [hsplit]
        exact Nat.add_mul_mod_self_right _ _ _
      rw [List.length_take, List.length_drop, min_eq_right hR]
      rcases Nat.lt_or_ge (l.length - m * cpp) cpp with hlt | hge
      · have hmodR : l.length % cpp = l.length - m * cpp := by
          rw [hmod]
          exact Nat.mod_eq_of_lt hlt
        rw [hmodR, if_neg (by set B := m * cpp; omega)]
      · have hEq : l.length - m * cpp = cpp := le_antisymm hR hge
        have hmod0 : l.length % cpp = 0 := by
          rw [hmod, hEq, Nat.mod_self]
        rw [hmod0, if_pos rfl, hEq]

/-- C9 witness: five images at capacity 2 — three batches `[0,1]`,
`[2,3]`, `[4]`, joining back to the input, interior lengths 2, last
length `5 mod 2 = 1`. -/
theorem c9_batching_witness :
    (1 ≤ 2) ∧
    (batches [0, 1, 2, 3, 4] 2).length = (([0, 1, 2, 3, 4] : List ℕ).length + 2 - 1) / 2 ∧
    (batches [0, 1, 2, 3, 4] 2).flatten = [0, 1, 2, 3, 4] ∧
    (∀ b ∈ (batches ([0, 1, 2, 3, 4] : List ℕ) 2).dropLast, b.length = 2) ∧
    (∀ b, (batches ([0, 1, 2, 3, 4] : List ℕ) 2).getLast? = some b →
      b.length = if ([0, 1, 2, 3, 4] : List ℕ).length % 2 = 0 then 2
        else ([0, 1, 2, 3, 4] : List ℕ).length % 2) :=
  ⟨by decide, c9_batching [0, 1, 2, 3, 4] 2 (by decide)⟩

/-! ### C10 -/

/-- On `sC10` the per-step height increment `cardH + gap = 1 + (-3)` is
negative, so the needed height `1 - 2t` shrinks with every trial count
and never exceeds the limit 6: the loop never stops, for any fuel. -/
theorem autoRowsAux_sC10_none :
    ∀ (fuel : ℕ) (t : ℤ), 1 ≤ t → autoRowsAux 1 (-3) 6 fuel t = none := by
  intro fuel
  induction fuel with
  | zero =>
    intro t ht
    rfl
  | succ n ih =>
    intro t ht
    simp only [autoRowsAux]
    split
    · rename_i hgt
      exfalso
      omega
    · exact ih (t + 1) (by omega)

/-- C10 counterexample: on `sC10` the scaled card height converts to
exactly one pixel (`cardH = 1 ≥ 1`), yet the auto-row search diverges:
the explicit `cols = 3` on a 10px page with 5px cards makes the gap
`(10 - 15) // 2 = -3`, the per-step increment `cardH + gap = -2` is
negative, and the loop never exceeds `pageH - 2*buffer = 6`. So
`cardH ≥ 1` alone does not guarantee termination. -/
theorem c10_counterexample :
    cardH sC10 = 1 ∧ ∀ fuel : ℕ, calculate_layout fuel sC10 = none := by
  have hch : cardH sC10 = 1 := by with_unfolding_all rfl
  refine ⟨hch, ?_⟩
  intro fuel
  have hcs : colsStep sC10 = .ok 3 := by with_unfolding_all rfl
  have hgap : gapOf sC10 3 = -3 := by with_unfolding_all rfl
  have hlim : pageH sC10 - bufferY sC10 = 6 := by with_unfolding_all rfl
  have hrs : rowsStep fuel sC10 3 = none := by
    rw [rowsStep, if_pos (show sC10.rows ≤ 0 by decide), hch, hgap, hlim]
    exact autoRowsAux_sC10_none fuel 1 (by omega)
  rw [calculate_layout, hcs]
  dsimp only
  rw [hrs]

/-- The loop stops within `k + 1` steps of fuel once the trial count
`t + k` satisfies the stop condition. -/
theorem autoRowsAux_stops (ch gp lim : ℤ) :
    ∀ (k : ℕ) (t : ℤ), (t + (k : ℤ) + 1) * ch + (t + (k : ℤ)) * gp > lim →
      ∃ r, autoRowsAux ch gp lim (k + 1) t = some r := by
  intro k
  induction k with
  | zero =>
    intro t hstop
    simp only [Nat.cast_zero, add_zero] at hstop
    have hc : (t + 1) * ch + (t + 1 - 1) * gp > lim := by
      have h2 : t + 1 - 1 = t := by ring
      rw [h2]
      exact hstop
    refine ⟨t, ?_⟩
    simp only [autoRowsAux]
    rw [if_pos hc]
  | succ k ih =>
    intro t hstop
    by_cases hc : (t + 1) * ch + (t + 1 - 1) * gp > lim
    · refine ⟨t, ?_⟩
      simp only [autoRowsAux]
      rw [if_pos hc]
    · have harg : (t + 1 + (k : ℤ) + 1) * ch + (t + 1 + (k : ℤ)) * gp > lim := by
        have h2 : t + 1 + (k : ℤ) + 1 = t + ((k : ℤ) + 1) + 1 := by ring
        have h3 : t + 1 + (k : ℤ) = t + ((k : ℤ) + 1) := by ring
        rw [h2, h3]
        push_cast at hstop
        exact hstop
      obtain ⟨r, hr⟩ := ih (t + 1) harg
      refine ⟨r, ?_⟩
      simp only [autoRowsAux]
      rw [if_neg hc]
      exact hr

/-- C10 (amended): the auto-row loop terminates whenever the per-step
height increment `cardH + gap` is at least one pixel — in particular for
every auto-column run with `cardH ≥ 1`, since auto columns give a
nonnegative gap. `cardH ≥ 1` alone is not sufficient: an explicit
oversized column count can make the gap so negative that the loop
diverges (see the counterexample), and with `cardH = 0` and `gap = 0`
(possible for positive physical heights, since conversion truncates) the
needed height never grows. -/
theorem c10_termination (s : Settings) (cols : ℤ)
    (hc : colsStep s = .ok cols)
    (hstep : 1 ≤ cardH s + gapOf s cols) :
    ∃ (fuel : ℕ) (res : Except LayoutError Layout),
      calculate_layout fuel s = some res := by
  by_cases hauto : s.rows ≤ 0
  · set ch := cardH s with hch
    set gp := gapOf s cols with hgp
    set lim := pageH s - bufferY s with hlim
    have hk : ∃ k : ℕ, ((1 : ℤ) + (k : ℤ) + 1) * ch + ((1 : ℤ) + (k : ℤ)) * gp > lim := by
      refine ⟨(lim - ch).toNat, ?_⟩
      have hexp : ((1 : ℤ) + ((lim - ch).toNat : ℤ) + 1) * ch +
          ((1 : ℤ) + ((lim - ch).toNat : ℤ)) * gp =
          ch + (1 + ((lim - ch).toNat : ℤ)) * (ch + gp) := by ring
      rw [hexp]
      rcases le_or_lt ch lim with hcl | hcl
      · have hval : (((lim - ch).toNat : ℤ)) = lim - ch := Int.toNat_of_nonneg (by omega)
        rw [hval]
        have hmul : 1 + (lim - ch) ≤ (1 + (lim - ch)) * (ch + gp) :=
          le_mul_of_one_le_right (by omega) hstep
        omega
      · have hval : (((lim - ch).toNat : ℤ)) = 0 := by
          rw [Int.toNat_of_nonpos (by omega)]
          rfl
        rw [hval]
        have hmul : 1 + (0 : ℤ) ≤ (1 + (0 : ℤ)) * (ch + gp) :=
          le_mul_of_one_le_right (by omega) hstep
        omega
    obtain ⟨k, hk⟩ := hk
    obtain ⟨r, hr⟩ := autoRowsAux_stops ch gp lim k 1 hk
    refine ⟨k + 1, finalStep s cols r, ?_⟩
    rw [calculate_layout, hc]
    dsimp only
    rw [rowsStep, if_pos hauto, ← hch, ← hgp, ← hlim, hr]
  · refine ⟨0, finalStep s cols s.rows, ?_⟩
    rw [calculate_layout, hc]
    dsimp only
    rw [rowsStep, if_neg hauto]

/-- C10 witness: scenario A — auto columns give `cardH + gap =
1029 + 22 ≥ 1`, so the search terminates and a result exists. -/
theorem c10_termination_witness :
    colsStep sA = .ok 3 ∧ (1 : ℤ) ≤ cardH sA + gapOf sA 3 ∧
    ∃ (fuel : ℕ) (res : Except LayoutError Layout),
      calculate_layout fuel sA = some res := by
  have hc : colsStep sA = .ok 3 := by with_unfolding_all rfl
  have hstep : (1 : ℤ) ≤ cardH sA + gapOf sA 3 := by
    rw [show cardH sA + gapOf sA 3 = 1051 from by with_unfolding_all rfl]
    decide
  exact ⟨hc, hstep, c10_termination sA 3 hc hstep⟩

end PyTCG
